import Mathlib

/-!
Verification of the AnswerPath RFI document-processing pipeline.

This file gives a shallow embedding, in Lean 4, of the core of the
AnswerPath server (the document-to-answer pipeline): content extraction
per media type (`src/server/services/documentProcessor.ts`), per-chunk
question extraction and validation, the background pipeline state machine
and CSV export (`src/server/routes.ts`), and the context-ingestion
sentence splitting feeding the embedding store.

Modelling conventions:
* JavaScript numbers are modelled as exact fractions (`JsNum`, related
  to `ℚ` by `JsNum.toRat`); `NaN` and `null` are explicit constructors
  where the code distinguishes them.
* `JSON.parse` is modelled by an executable recursive-descent parser for
  the JSON value grammar (objects, arrays, strings, numbers, literals);
  a failed parse is `none`, matching a thrown `SyntaxError`.
* External format libraries (pdf loader, mammoth, xlsx, the langchain
  CSV loader) are modelled at their interface: the raw bytes of a file
  are represented by the structured payload the library would decode,
  and a library applied to bytes of the wrong format fails.
* Fallible code returns `Except`/`Option`; background effects of the
  pipeline are recorded as an explicit effect trace.
-/

set_option maxRecDepth 4000

namespace AnswerPath

/-! ### JavaScript string helpers -/

/-- JavaScript whitespace test used by `String.prototype.trim` (the
common ASCII whitespace characters; all inputs considered here are
ASCII). -/
def jsIsWhitespace (c : Char) : Bool :=
  c = ' ' || c = '\t' || c = '\n' || c = '\r'

/-- Character-list version of `String.prototype.trim`: drop leading and
trailing whitespace. -/
def trimChars (cs : List Char) : List Char :=
  ((cs.dropWhile jsIsWhitespace).reverse.dropWhile jsIsWhitespace).reverse

/-- Embedding of `String.prototype.trim`. -/
def jsTrim (s : String) : String :=
  String.mk (trimChars s.toList)

/-- Embedding of `s.endsWith('?')`: the last character is `?`. -/
def endsWithQmark (s : String) : Bool :=
  decide (s.toList.getLast? = some '?')

/-- Embedding of `str.includes(sub)` / substring containment. -/
def strContains (s pat : String) : Bool :=
  s.toList.tails.any (fun t => pat.toList.isPrefixOf t)

end AnswerPath

namespace AnswerPath

/-! ### JSON values and `JSON.parse` -/

/-- A JavaScript number, modelled as an exact fraction
`num / den` (`den` is positive for every value built here).  A plain
pair of machine-friendly integers is used instead of `ℚ` so that every
operation reduces in the kernel; `JsNum.toRat` relates it to `ℚ`. -/
structure JsNum where
  num : ℤ
  den : ℕ
deriving DecidableEq, Repr

/-- The rational value of a `JsNum`. -/
def JsNum.toRat (a : JsNum) : ℚ := (a.num : ℚ) / (a.den : ℚ)

/-- Order on `JsNum` by cross-multiplication (denominators are
positive). -/
def jsLe (a b : JsNum) : Bool :=
  decide (a.num * (b.den : ℤ) ≤ b.num * (a.den : ℤ))

/-- `jsLe` agrees with the rational order when the denominators are
positive. -/
theorem jsLe_iff_toRat_le (a b : JsNum) (ha : 0 < a.den) (hb : 0 < b.den) :
    jsLe a b = true ↔ a.toRat ≤ b.toRat := by
  have ha' : (0 : ℚ) < (a.den : ℚ) := by exact_mod_cast ha
  have hb' : (0 : ℚ) < (b.den : ℚ) := by exact_mod_cast hb
  rw [jsLe, decide_eq_true_eq, JsNum.toRat, JsNum.toRat,
    div_le_div_iff₀ ha' hb']
  constructor
  · intro h
    exact_mod_cast h
  · intro h
    exact_mod_cast h

/-- JSON values, as produced by `JSON.parse`. -/
inductive Json where
  | null
  | bool (b : Bool)
  | num (q : JsNum)
  | str (s : String)
  | arr (elems : List Json)
  | obj (fields : List (String × Json))

/-- Skip JSON whitespace (space, tab, newline, carriage return). -/
def skipWs : List Char → List Char
  | c :: rest => if c = ' ' || c = '\t' || c = '\n' || c = '\r' then skipWs rest else c :: rest
  | [] => []

/-- Parse the remainder of a JSON string literal (the opening quote has
been consumed), handling the common escapes. -/
def parseStrRest : List Char → List Char → Option (String × List Char)
  | acc, '"' :: rest => some (String.mk acc.reverse, rest)
  | acc, '\\' :: c :: rest =>
    if c = '"' then parseStrRest ('"' :: acc) rest
    else if c = '\\' then parseStrRest ('\\' :: acc) rest
    else if c = '/' then parseStrRest ('/' :: acc) rest
    else if c = 'n' then parseStrRest ('\n' :: acc) rest
    else if c = 't' then parseStrRest ('\t' :: acc) rest
    else if c = 'r' then parseStrRest ('\r' :: acc) rest
    else none
  | acc, c :: rest => parseStrRest (c :: acc) rest
  | _, [] => none

/-- Digit run to a natural number. -/
def digitsToNat (ds : List Char) : ℕ :=
  ds.foldl (fun a c => a * 10 + (c.toNat - 48)) 0

/-- Parse a JSON number (optional sign, integer part, optional fraction;
exponents are not needed by any oracle output considered here). -/
def parseNum (l : List Char) : Option (JsNum × List Char) :=
  let (neg, l) := match l with
    | '-' :: rest => (true, rest)
    | _ => (false, l)
  let intDigits := l.takeWhile Char.isDigit
  let l := l.dropWhile Char.isDigit
  if intDigits.isEmpty then none
  else
    let ip := digitsToNat intDigits
    match l with
    | '.' :: rest =>
      let fracDigits := rest.takeWhile Char.isDigit
      let rest := rest.dropWhile Char.isDigit
      if fracDigits.isEmpty then none
      else
        let d := 10 ^ fracDigits.length
        let n : ℤ := (ip * d + digitsToNat fracDigits : ℕ)
        some (⟨if neg then -n else n, d⟩, rest)
    | _ => some (⟨if neg then -(ip : ℤ) else (ip : ℤ), 1⟩, l)

/-- The character `{`. -/
def lbrace : Char := Char.ofNat 123

/-- The character `}`. -/
def rbrace : Char := Char.ofNat 125

mutual

/-- Parse one JSON value (fuel-bounded recursive descent). -/
def parseVal : ℕ → List Char → Option (Json × List Char)
  | 0, _ => none
  | fuel + 1, l =>
    match skipWs l with
    | [] => none
    | c :: rest =>
      if c = lbrace then parseObjFields fuel (skipWs rest) []
      else if c = '[' then parseArrElems fuel (skipWs rest) []
      else if c = '"' then (parseStrRest [] rest).map (fun p => (Json.str p.1, p.2))
      else match c :: rest with
        | 'n' :: 'u' :: 'l' :: 'l' :: r => some (Json.null, r)
        | 't' :: 'r' :: 'u' :: 'e' :: r => some (Json.bool true, r)
        | 'f' :: 'a' :: 'l' :: 's' :: 'e' :: r => some (Json.bool false, r)
        | l' => (parseNum l').map (fun p => (Json.num p.1, p.2))

/-- Parse array elements after `[` (accumulator holds parsed elements in
reverse). -/
def parseArrElems : ℕ → List Char → List Json → Option (Json × List Char)
  | 0, _, _ => none
  | fuel + 1, l, acc =>
    match l with
    | ']' :: rest => if acc.isEmpty then some (Json.arr [], rest) else none
    | _ =>
      match parseVal fuel l with
      | none => none
      | some (v, rest) =>
        match skipWs rest with
        | ',' :: rest' => parseArrElems fuel (skipWs rest') (v :: acc)
        | ']' :: rest' => some (Json.arr (v :: acc).reverse, rest')
        | _ => none

/-- Parse object members after `{` (accumulator holds parsed members in
reverse). -/
def parseObjFields : ℕ → List Char → List (String × Json) → Option (Json × List Char)
  | 0, _, _ => none
  | fuel + 1, l, acc =>
    match l with
    | c :: rest =>
      if c = rbrace then
        if acc.isEmpty then some (Json.obj [], rest) else none
      else if c = '"' then
        match parseStrRest [] rest with
        | none => none
        | some (key, rest') =>
          match skipWs rest' with
          | ':' :: rest'' =>
            match parseVal fuel (skipWs rest'') with
            | none => none
            | some (v, rest''') =>
              match skipWs rest''' with
              | ',' :: r =>
                match skipWs r with
                | '"' :: _ => parseObjFields fuel (skipWs r) ((key, v) :: acc)
                | _ => none
              | c' :: r =>
                if c' = rbrace then some (Json.obj ((key, v) :: acc).reverse, r) else none
              | _ => none
          | _ => none
      else none
    | [] => none

end

/-- Embedding of `JSON.parse`: parse one value, allow trailing
whitespace only; `none` models a thrown `SyntaxError`. -/
def Json.parse (s : String) : Option Json :=
  match parseVal (2 * s.length + 8) s.toList with
  | some (j, rest) => if (skipWs rest).isEmpty then some j else none
  | none => none

/-! ### Record validation (`DocumentProcessor.extractQuestions` filter) -/

/-- First-match association lookup for JSON object fields (the records
produced by the oracle have distinct keys). -/
def lookupKV : List (String × Json) → String → Option Json
  | [], _ => none
  | (k, v) :: rest, key => if k = key then some v else lookupKV rest key

/-- JavaScript property read `j[k]` on a parsed JSON value other than
`null`: a field of an object, `undefined` (here `none`) otherwise. -/
def getField (j : Json) (k : String) : Option Json :=
  match j with
  | .obj kvs => lookupKV kvs k
  | _ => none

/-- Embedding of the per-record validation predicate of
`DocumentProcessor.extractQuestions` (documentProcessor.ts lines
189-198): `typeof q.text === 'string' && q.text.length > 0`, the type is
exactly `explicit` or `implicit`, the confidence is a number with
`q.confidence >= 0 && q.confidence <= 1`, and `q.answer` and
`q.sourceDocument` are of type string (their contents are not
inspected). -/
def validQuestionB (j : Json) : Bool :=
  (match getField j ("text") with
   | some (.str s) => decide (0 < s.length)
   | _ => false)
  && (match getField j ("type") with
      | some (.str t) => (t = ("explicit") : Bool) || (t = ("implicit") : Bool)
      | _ => false)
  && (match getField j ("confidence") with
      | some (.num c) => jsLe ⟨0, 1⟩ c && jsLe c ⟨1, 1⟩
      | _ => false)
  && (match getField j ("answer") with
      | some (.str _) => true
      | _ => false)
  && (match getField j ("sourceDocument") with
      | some (.str _) => true
      | _ => false)

/-- Running the validation predicate on one parsed array element.  A
property read on `null` throws a `TypeError` in JavaScript (modelled as
`none`); on every other JSON value the checks evaluate normally. -/
def validCheck : Json → Option Bool
  | .null => none
  | j => some (validQuestionB j)

/-- Embedding of `chunkQuestions.filter(q => ...)`: the predicate runs on
every element in order; a thrown `TypeError` (a `null` element) aborts
the whole `filter` call, otherwise exactly the elements passing the
checks are kept, each decided independently. -/
def filterRecords : List Json → Option (List Json)
  | [] => some []
  | j :: rest =>
    match validCheck j with
    | none => none
    | some b => (filterRecords rest).map (fun l => if b then j :: l else l)

/-- Questions contributed by one successfully parsed oracle payload: a
non-array value is logged and skipped (`continue`), and an exception
while filtering (a `null` element) is caught by the same per-chunk
`catch`, so both contribute zero records. -/
def recordsFromParsed (j : Json) : List Json :=
  match j with
  | .arr xs => (filterRecords xs).getD []
  | _ => []

/-- Questions contributed by one raw oracle response string
(documentProcessor.ts lines 180-207): a direct `JSON.parse`, with any
parse failure caught and turned into zero records for the chunk. -/
def chunkRecordsFromResponse (resp : String) : List Json :=
  match Json.parse resp with
  | none => []
  | some j => recordsFromParsed j

/-! ### Chunk loop and `DocumentProcessor` state -/

/-- A langchain `Document`: one normalized text unit or chunk. -/
structure LCDoc where
  pageContent : String
deriving DecidableEq, Repr

/-- Outcome of one generative-oracle invocation: a response payload, or
a thrown error (timeout, auth, quota). -/
inductive OracleResult where
  | ok (content : String)
  | err (msg : String)

/-- The question-extraction prompt of documentProcessor.ts lines
141-152, with `{text}` substituted. -/
def promptFor (text : String) : String :=
  ("Analyze this text from an RFI document: ") ++ text ++
  ("\n\nExtract both explicit questions (marked with ?) and implicit questions (requirements needing responses).\n\nReturn only a JSON array with this format:\n[\x7b\n  \"text\": \"The actual question found\",\n  \"type\": \"explicit or implicit\",\n  \"confidence\": \"number between 0-1\",\n  \"answer\": \"Draft answer based on context\",\n  \"sourceDocument\": \"Section reference\"\n\x7d]")

/-- One iteration of the chunk loop of
`DocumentProcessor.extractQuestions`: trim the chunk, skip chunks under
10 characters, invoke the oracle, and convert its response to validated
records; an oracle error is caught by the per-chunk `catch` and the
chunk contributes nothing. -/
def perChunk (oracle : String → OracleResult) (doc : LCDoc) : List Json :=
  let text := jsTrim doc.pageContent
  if text = ("") ∨ text.length < 10 then []
  else
    match oracle (promptFor text) with
    | .err _ => []
    | .ok resp => chunkRecordsFromResponse resp

/-- The full chunk loop: accumulate the valid records of every chunk, in
order. -/
def extractQuestionsImpl (oracle : String → OracleResult) (docs : List LCDoc) : List Json :=
  (docs.map (perChunk oracle)).flatten

/-- The mutable state of a `DocumentProcessor` instance: the vector
store is `none` until a `processDocument` call succeeds. -/
structure DocumentProcessorState where
  vectorStore : Option Unit
deriving DecidableEq

/-- A freshly constructed `DocumentProcessor` (`vectorStore = null`). -/
def DocumentProcessorState.init : DocumentProcessorState := ⟨none⟩

/-- Embedding of `DocumentProcessor.extractQuestions`: the guard at
documentProcessor.ts lines 133-135 throws when no vector store has been
created, otherwise the chunk loop runs to completion and the accumulated
questions are returned (the loop body catches its own failures, so no
error escapes). -/
def dpExtractQuestions (dp : DocumentProcessorState) (oracle : String → OracleResult)
    (docs : List LCDoc) : Except String (List Json) :=
  match dp.vectorStore with
  | none => .error ("Documents must be processed before extracting questions")
  | some _ => .ok (extractQuestionsImpl oracle docs)

/-! ### The spec's parse strategy (for comparison, claim C4) -/

/-- The span from the first `[` to the last `]` of a string: the match
of the greedy JavaScript regular expression `/\[[\s\S]*\]/` used by the
sibling revision (src/unnamed/part_008) to locate an array-shaped
substring. -/
def firstArraySpan (s : String) : Option String :=
  let cs := s.toList
  match cs.findIdx? (· = '[') with
  | none => none
  | some i =>
    match cs.reverse.findIdx? (· = ']') with
    | none => none
    | some r =>
      let j := cs.length - 1 - r
      if i ≤ j then some (String.mk ((cs.drop i).take (j - i + 1))) else none

/-- Modelled from the spec: the parsing strategy the specification
prescribes for `extractQuestions` — first a direct parse of the raw
oracle output as an array, and on failure a retry on the first
array-shaped substring of the response.  Stated only to compare against
`chunkRecordsFromResponse`, the strategy the shipped code implements. -/
def specParseStrategy (resp : String) : List Json :=
  match Json.parse resp with
  | some (.arr xs) => (filterRecords xs).getD []
  | _ =>
    match firstArraySpan resp with
    | some sub =>
      match Json.parse sub with
      | some (.arr xs) => (filterRecords xs).getD []
      | _ => []
    | none => []

/-! ### Content extraction (`DocumentProcessor.processDocument`) -/

/-- The decoded payload standing for a file's raw bytes: the structured
content an external format library would read out of them.  `binary` is
any payload none of the libraries can decode. -/
inductive FileData where
  | pdf (pages : List String)
  | word (text : String)
  | sheets (workbook : List (String × List (List String)))
  | binary

/-- An uploaded file as multer hands it over (`Express.Multer.File`). -/
structure UploadFile where
  originalname : String
  mimetype : String
  data : FileData

/-- The `PDFLoader` boundary: one text unit per page, failing on
non-PDF bytes. -/
def pdfLoaderLoad : FileData → Except String (List String)
  | .pdf pages => .ok pages
  | _ => .error ("Failed to load PDF file")

/-- The `mammoth.extractRawText` boundary: the document's plain text,
failing on non-Word bytes. -/
def mammothExtractRawText : FileData → Except String String
  | .word text => .ok text
  | _ => .error ("Failed to extract text from Word document")

/-- The `XLSX.read` boundary: the workbook (sheet names in order, each
with its cell rows), failing on non-Excel bytes. -/
def xlsxRead : FileData → Except String (List (String × List (List String)))
  | .sheets wb => .ok wb
  | _ => .error ("Failed to read Excel file")

/-- One CSV cell as `XLSX.utils.sheet_to_csv` writes it: quoted with
doubled quotes when it contains a delimiter, quote or newline. -/
def csvCell (s : String) : String :=
  if s.toList.any (fun c => c = ',' || c = '"' || c = '\n') then
    ("\"") ++ String.mk (s.toList.foldr (fun c acc => if c = '"' then '"' :: '"' :: acc else c :: acc) []) ++ ("\"")
  else s

/-- The `XLSX.utils.sheet_to_csv` boundary: rows joined by newlines,
cells by commas. -/
def sheet_to_csv (rows : List (List String)) : String :=
  String.intercalate ("\n") (rows.map (fun cells => String.intercalate (",") (cells.map csvCell)))

/-- Split a character list at every occurrence of a separator
character. -/
def splitOnChar (sep : Char) : List Char → List (List Char)
  | [] => [[]]
  | c :: rest =>
    if c = sep then [] :: splitOnChar sep rest
    else
      match splitOnChar sep rest with
      | [] => [[c]]
      | seg :: segs => (c :: seg) :: segs

/-- String split at a separator character. -/
def strSplitChar (sep : Char) (s : String) : List String :=
  (splitOnChar sep s.toList).map (fun cs => String.mk cs)

/-- The langchain `CSVLoader` boundary: the first line is the header;
every following non-empty line becomes one document whose content lists
`column: value` pairs line by line. -/
def csvLoaderLoad (csv : String) : List LCDoc :=
  match strSplitChar '\n' csv with
  | [] => []
  | header :: dataRows =>
    let cols := strSplitChar ',' header
    (dataRows.filter (fun r => !(r = ("") : Bool))).map
      (fun r => ⟨String.intercalate ("\n") ((cols.zip (strSplitChar ',' r)).map (fun p => p.1 ++ (": ") ++ p.2))⟩)

/-- OOXML Word media type. -/
def mtDocx : String := "application/vnd.openxmlformats-officedocument.wordprocessingml.document"

/-- Legacy Word media type. -/
def mtDoc : String := "application/msword"

/-- OOXML Excel media type. -/
def mtXlsx : String := "application/vnd.openxmlformats-officedocument.spreadsheetml.sheet"

/-- Legacy Excel media type. -/
def mtXls : String := "application/vnd.ms-excel"

/-- PDF media type. -/
def mtPdf : String := "application/pdf"

/-- The media-type dispatch of `DocumentProcessor.processDocument`
(documentProcessor.ts lines 74-102): PDF → one unit per page; Word →
one unit with the extracted raw text; Excel → `sheet_to_csv` of
`workbook.Sheets[workbook.SheetNames[0]]` (the first sheet only) fed
through the CSV loader; any other declared media type → a thrown
`Unsupported file type` error. -/
def extractContent (file : UploadFile) : Except String (List LCDoc) :=
  if file.mimetype = mtPdf then
    (pdfLoaderLoad file.data).map (fun pages => pages.map (fun p => ⟨p⟩))
  else if file.mimetype = mtDocx ∨ file.mimetype = mtDoc then
    (mammothExtractRawText file.data).map (fun t => [⟨t⟩])
  else if file.mimetype = mtXlsx ∨ file.mimetype = mtXls then
    match xlsxRead file.data with
    | .error e => .error e
    | .ok [] => .error ("Failed to read Excel sheet")
    | .ok ((_, rows) :: _) => .ok (csvLoaderLoad (sheet_to_csv rows))
  else
    .error (("Unsupported file type: ") ++ file.mimetype)

/-- The Excel branch of the sibling revision of `processDocument`
(src/unnamed/part_008 lines 69-88): every sheet is serialized and
prefixed with a `Sheet: <name>` boundary marker, and all sheets are
joined into a single unit. -/
def extractExcelAllSheets (workbook : List (String × List (List String))) : List LCDoc :=
  [⟨String.intercalate ("\n\n")
      (workbook.map (fun p => ("Sheet: ") ++ p.1 ++ ("\n") ++ sheet_to_csv p.2))⟩]

/-! ### Upload intake (multer allow-list, routes.ts lines 12-27) -/

/-- The media-type allow-list of the multer `fileFilter`. -/
def allowedTypes : List String := [mtPdf, mtDoc, mtDocx, mtXls, mtXlsx]

/-- The multer `fileFilter` verdict: `cb(null, allowedTypes.includes(file.mimetype))`. -/
def uploadAccept (mimetype : String) : Bool :=
  allowedTypes.contains mimetype

/-- The document rows created by `POST /api/documents/upload`: multer
silently drops every file its filter rejects, and one `processing`
document row is inserted per surviving file (routes.ts lines 40-64). -/
def uploadDocuments (files : List UploadFile) : List (String × String × String) :=
  (files.filter (fun f => uploadAccept f.mimetype)).map
    (fun f => (f.originalname, f.mimetype, ("processing")))

/-! ### Context ingestion (`POST /api/contexts`, routes.ts lines 167-196) -/

/-- Terminal punctuation matched by the splitting regular expression
`/[.!?]+/`. -/
def isTerminalPunct (c : Char) : Bool :=
  c = '.' || c = '!' || c = '?'

/-- Worker for `content.split(/[.!?]+/)`: walk the characters, closing
the current segment at every maximal run of terminal punctuation
(`inRun` records being inside such a run, `acc` the current segment in
reverse). -/
def splitGo : Bool → List Char → List Char → List (List Char)
  | inRun, acc, [] => if inRun then [[]] else [acc.reverse]
  | inRun, acc, c :: rest =>
    if inRun then
      if isTerminalPunct c then splitGo true [] rest
      else splitGo false [c] rest
    else
      if isTerminalPunct c then acc.reverse :: splitGo true [] rest
      else splitGo false (c :: acc) rest

/-- Embedding of `content.split(/[.!?]+/)`. -/
def jsSplitPunct (s : String) : List String :=
  (splitGo false [] s.toList).map (fun cs => String.mk cs)

/-- The sentence-like units of a new ContextEntry's content:
`content.split(/[.!?]+/).filter(Boolean).map(s => s.trim())`. -/
def contextSentences (content : String) : List String :=
  ((jsSplitPunct content).filter (fun s => !(s = ("") : Bool))).map jsTrim

/-- The units stored as question embeddings:
`sentences.filter(s => s.endsWith('?'))`. -/
def contextQuestionSnippets (content : String) : List String :=
  (contextSentences content).filter (fun s => endsWithQmark s)

/-- The units stored as answer embeddings:
`sentences.filter(s => !s.endsWith('?'))`. -/
def contextAnswerSnippets (content : String) : List String :=
  (contextSentences content).filter (fun s => !endsWithQmark s)

/-! ### CSV export (`GET /api/questions/export`, routes.ts lines 305-348) -/

/-- A value read from the `confidence` column (`real`, nullable, and the
code also guards against a stored `NaN`). -/
inductive DbNum where
  | null
  | nan
  | num (q : JsNum)
deriving DecidableEq

/-- One row of the `questions` table as the export query selects it
(nullable columns are `Option`). -/
structure QuestionRow where
  text : Option String
  type : Option String
  confidence : DbNum
  answer : Option String
  sourceDocument : Option String
deriving DecidableEq

/-- JavaScript `a || d` on a string-or-null value: `null` and the empty
string are falsy and yield the default. -/
def jsOr (v : Option String) (d : String) : String :=
  match v with
  | none => d
  | some s => if s = ("") then d else s

/-- `Number.prototype.toFixed(1)` on a nonnegative fraction: the nearest
multiple of one tenth, ties toward the larger value, written with
exactly one decimal digit. -/
def toFixed1Nonneg (x : JsNum) : String :=
  let n := (Int.fdiv (2 * x.num * 10 + (x.den : ℤ)) (2 * (x.den : ℤ))).toNat
  toString (n / 10) ++ (".") ++ toString (n % 10)

/-- `Number.prototype.toFixed(1)`: negative values format the absolute
value behind a minus sign (ECMAScript `Number.prototype.toFixed`). -/
def toFixed1 (x : JsNum) : String :=
  if x.num < 0 then ("-") ++ toFixed1Nonneg ⟨-x.num, x.den⟩ else toFixed1Nonneg x

/-- The confidence column rendering of the export route:
`typeof q.confidence === 'number' && !isNaN(q.confidence) ?
(q.confidence * 100).toFixed(1) : '0.0'` followed by `%`. -/
def renderConfidence : DbNum → String
  | .num q => toFixed1 ⟨q.num * 100, q.den⟩ ++ ("%")
  | _ => ("0.0%")

/-- CSV field quoting of the export route:
`"${String(val).replace(/"/g, '""')}"`. -/
def quoteField (val : String) : String :=
  ("\"") ++ String.mk (val.toList.foldr (fun c acc => if c = '"' then '"' :: '"' :: acc else c :: acc) []) ++ ("\"")

/-- One exported CSV row: defaulted fields, rendered confidence, every
field quoted, joined by commas. -/
def csvRow (q : QuestionRow) : String :=
  String.intercalate (",")
    ([jsOr q.text (""), jsOr q.type ("unknown"), renderConfidence q.confidence,
      jsOr q.answer (""), jsOr q.sourceDocument ("")].map quoteField)

/-- The header line the export route starts from. -/
def csvHeader : String := "Question,Type,Confidence,Answer,Source Document"

/-- The full export: a 404 (`none`) when there are no questions,
otherwise the header line and one newline-terminated row per question. -/
def exportQuestionsCsv (rows : List QuestionRow) : Option String :=
  if rows.isEmpty then none
  else some (csvHeader ++ ("\n") ++ String.join (rows.map (fun q => csvRow q ++ ("\n"))))

/-! ### Status query fallback (`GET /api/processing/status`, routes.ts lines 96-133) -/

/-- The `ProcessingStatus` shape returned to pollers. -/
structure StatusShape where
  currentStep : String
  completedSteps : List String
  progress : ℕ
  error : Option String
deriving DecidableEq

/-- The best-effort status derived from the durable document record when
no in-memory status exists (routes.ts lines 117-130).  The error field
is `(doc.metadata)?.error || "Unknown error occurred"`: by JavaScript
`||` falsiness, a missing *or empty* stored message yields the
default. -/
def defaultStatusFor (docStatus : String) (metaError : Option String) : StatusShape where
  currentStep :=
    if docStatus = ("error") then ("error")
    else if docStatus = ("processed") then ("complete")
    else ("preparation")
  completedSteps :=
    if docStatus = ("processed") then
      [("preparation"), ("extraction"), ("questions"), ("analysis")]
    else []
  progress :=
    if docStatus = ("error") then 0
    else if docStatus = ("processed") then 100
    else 25
  error :=
    if docStatus = ("error") then some (jsOr metaError ("Unknown error occurred"))
    else none

/-- The status-query result: the in-memory status when present,
otherwise the derived fallback. -/
def statusQueryResult (mem : Option StatusShape) (docStatus : String)
    (metaError : Option String) : StatusShape :=
  match mem with
  | some s => s
  | none => defaultStatusFor docStatus metaError

/-! ### The background pipeline (`processDocument`, routes.ts lines 439-562) -/

/-- One observable effect of a pipeline run: an in-memory status update,
a question row insert, or a durable document status update. -/
inductive Effect where
  | setStatus (step : String) (completed : List String) (progress : ℕ) (err : Option String)
  | insertQuestion (q : Json)
  | setDocStatus (status : String) (metaErr : Option String)

/-- The user-facing error message mapping of the pipeline's catch block
(routes.ts lines 529-538). -/
def mapErrorMessage (msg : String) : String :=
  if strContains msg ("API key") then
    ("OpenAI API authentication failed. Please check the API key configuration.")
  else if strContains msg ("quota") then
    ("OpenAI API quota exceeded. Please check your usage limits.")
  else msg

/-- The effects of a failed run: a content-extraction failure maps the
error message and marks the in-memory status and the durable document
`error`. -/
def pipelineErrorEffects (msg : String) : List Effect :=
  Effect.setStatus ("preparation") [] 0 none ::
  Effect.setStatus ("preparation") [] 0 none ::
  Effect.setStatus ("extraction") [("preparation")] 25 none ::
  Effect.setStatus ("error") [] 0 (some msg) ::
  Effect.setDocStatus ("error") (some msg) :: []

/-- The effects of a successful run, given the questions extracted from
the split chunks: the five status milestones, one insert per question,
then the durable `processed` update and the final `complete` status. -/
def pipelineSuccessEffects (qs : List Json) : List Effect :=
  Effect.setStatus ("preparation") [] 0 none ::
  Effect.setStatus ("preparation") [] 0 none ::
  Effect.setStatus ("extraction") [("preparation")] 25 none ::
  Effect.setStatus ("questions") [("preparation"), ("extraction")] 50 none ::
  Effect.setStatus ("analysis") [("preparation"), ("extraction"), ("questions")] 75 none ::
  (qs.map Effect.insertQuestion ++
    [Effect.setDocStatus ("processed") none,
     Effect.setStatus ("complete") [("preparation"), ("extraction"), ("questions"), ("analysis")] 100 none])

/-- The ordered effects of one background pipeline run for an accepted
file (routes.ts `processDocument`).  `split` stands for the langchain
`RecursiveCharacterTextSplitter` (an external boundary applied to the
extracted units); `oracle` answers the generative-model calls. -/
def pipelineTrace (split : List LCDoc → List LCDoc) (oracle : String → OracleResult)
    (file : UploadFile) : List Effect :=
  match (extractContent file).map split with
  | .error e => pipelineErrorEffects (mapErrorMessage e)
  | .ok docs => pipelineSuccessEffects (extractQuestionsImpl oracle docs)

/-! ### Concrete fixtures -/

/-- A two-sheet workbook, one row of data per sheet. -/
def wbPS : List (String × List (List String)) :=
  [(("Pricing"), [[("Item"), ("Price")], [("Widget"), ("10")]]),
   (("Security"), [[("Control"), ("Status")], [("Encryption"), ("AES256")]])]

/-- An uploaded `.xlsx` file holding `wbPS`. -/
def filePS : UploadFile := ⟨("rfi.xlsx"), mtXlsx, .sheets wbPS⟩

/-- An uploaded PNG image. -/
def pngFile : UploadFile := ⟨("image.png"), ("image/png"), .binary⟩

/-- An uploaded `.docx` file with two sentences of text. -/
def fileW : UploadFile :=
  ⟨("rfi.docx"), mtDocx, .word ("What is your retention policy? Explain the policy in detail.")⟩

/-- An exported question row with confidence `0.947` and an embedded
double quote in its answer. -/
def r947 : QuestionRow :=
  ⟨some ("What is your SLA?"), some ("explicit"), .num ⟨947, 1000⟩,
   some ("He said \"yes\" to us."), some ("Section 2")⟩

/-- An exported question row with a stored `NaN` confidence. -/
def rNaN : QuestionRow := ⟨some ("Q2"), some ("implicit"), .nan, some ("A2"), some ("S2")⟩

/-- An exported question row with confidence `0.5`. -/
def r05 : QuestionRow := ⟨some ("Q3"), some ("explicit"), .num ⟨1, 2⟩, some ("A3"), some ("S3")⟩

/-- A well-formed oracle response: a JSON array with one valid record. -/
def goodResp : String :=
  "[\x7b\"text\": \"What is your retention policy?\", \"type\": \"explicit\", \"confidence\": 0.9, \"answer\": \"We retain data for 5 years.\", \"sourceDocument\": \"Section 1\"\x7d]"

/-- The record `goodResp` parses to. -/
def recGood : Json :=
  .obj [(("text"), .str ("What is your retention policy?")),
        (("type"), .str ("explicit")),
        (("confidence"), .num ⟨9, 10⟩),
        (("answer"), .str ("We retain data for 5 years.")),
        (("sourceDocument"), .str ("Section 1"))]

/-- An oracle response wrapping a valid JSON array in surrounding
prose, so that a direct parse of the whole response fails. -/
def respProse : String :=
  "Here are the questions you asked for: [\x7b\"text\": \"What is your uptime SLA?\", \"type\": \"explicit\", \"confidence\": 0.8, \"answer\": \"Our uptime SLA is 99.9 percent.\", \"sourceDocument\": \"SLA section\"\x7d] Let me know if you need more."

/-- The record embedded in `respProse`. -/
def recSLA : Json :=
  .obj [(("text"), .str ("What is your uptime SLA?")),
        (("type"), .str ("explicit")),
        (("confidence"), .num ⟨8, 10⟩),
        (("answer"), .str ("Our uptime SLA is 99.9 percent.")),
        (("sourceDocument"), .str ("SLA section"))]

/-- A record passing every check of the validator although its answer
and source citation are empty strings. -/
def recEmptyAnswer : Json :=
  .obj [(("text"), .str ("Provide details about your SOC 2 certification")),
        (("type"), .str ("implicit")),
        (("confidence"), .num ⟨1, 2⟩),
        (("answer"), .str ("")),
        (("sourceDocument"), .str (""))]

/-- An oracle that always answers with `goodResp`. -/
def oracleGood : String → OracleResult := fun _ => .ok goodResp

/-- An oracle that always answers with plain prose that is not JSON. -/
def oracleProse : String → OracleResult := fun _ => .ok ("I could not find any questions in this text.")

/-- A chunk long enough to be processed. -/
def chunkA : LCDoc := ⟨"Describe your backup strategy in detail."⟩

/-- Another chunk long enough to be processed. -/
def chunkB : LCDoc := ⟨"Vendor must provide SOC 2 certification."⟩

/-! ### Supporting lemmas: the sentence splitter (claim C2) -/

/-- Dropping a prefix keeps membership. -/
theorem mem_of_mem_dropWhile {p : Char → Bool} {l : List Char} {a : Char}
    (h : a ∈ l.dropWhile p) : a ∈ l := by
  induction l with
  | nil => simp at h
  | cons c rest ih =>
    rw [List.dropWhile_cons] at h
    by_cases hc : p c = true
    · simp only [hc, if_true] at h
      exact List.mem_cons_of_mem c (ih h)
    · simp only [hc, if_false] at h
      exact h

/-- Characters surviving a trim belong to the original list. -/
theorem mem_of_mem_trimChars {cs : List Char} {a : Char} (h : a ∈ trimChars cs) : a ∈ cs := by
  rw [trimChars, List.mem_reverse] at h
  have h2 := mem_of_mem_dropWhile h
  rw [List.mem_reverse] at h2
  exact mem_of_mem_dropWhile h2

/-- The last element of a list is a member. -/
theorem mem_of_getLast?_eq {α : Type} {l : List α} {a : α} (h : l.getLast? = some a) : a ∈ l := by
  induction l with
  | nil => simp at h
  | cons c rest ih =>
    cases rest with
    | nil =>
      simp [List.getLast?] at h
      simp [h]
    | cons d rest' =>
      rw [List.getLast?_cons_cons] at h
      exact List.mem_cons_of_mem c (ih h)

/-- Every segment produced by the split worker is free of terminal
punctuation, provided the accumulated segment is. -/
theorem splitGo_punct_free (l : List Char) :
    ∀ (inRun : Bool) (acc : List Char), (∀ c ∈ acc, isTerminalPunct c = false) →
      ∀ seg ∈ splitGo inRun acc l, ∀ c ∈ seg, isTerminalPunct c = false := by
  induction l with
  | nil =>
    intro inRun acc hacc seg hseg c hc
    cases inRun with
    | true =>
      simp [splitGo] at hseg
      subst hseg
      simp at hc
    | false =>
      simp [splitGo] at hseg
      subst hseg
      exact hacc c (List.mem_reverse.mp hc)
  | cons x rest ih =>
    intro inRun acc hacc seg hseg c hc
    by_cases hx : isTerminalPunct x = true
    · cases inRun with
      | true =>
        simp [splitGo, hx] at hseg
        exact ih true [] (by simp) seg hseg c hc
      | false =>
        simp [splitGo, hx] at hseg
        rcases hseg with h1 | h2
        · subst h1
          exact hacc c (List.mem_reverse.mp hc)
        · exact ih true [] (by simp) seg h2 c hc
    · rw [Bool.not_eq_true] at hx
      cases inRun with
      | true =>
        simp [splitGo, hx] at hseg
        refine ih false [x] ?_ seg hseg c hc
        intro d hd
        rw [List.mem_singleton] at hd
        subst hd
        exact hx
      | false =>
        simp [splitGo, hx] at hseg
        refine ih false (x :: acc) ?_ seg hseg c hc
        intro d hd
        rcases List.mem_cons.mp hd with h1 | h2
        · subst h1
          exact hx
        · exact hacc d h2

/-- No character of a sentence-like unit of a ContextEntry's content is
terminal punctuation: the splitting regular expression consumed every
`.`, `!` and `?`. -/
theorem contextSentences_punct_free (content : String) :
    ∀ s ∈ contextSentences content, ∀ c ∈ s.toList, isTerminalPunct c = false := by
  intro s hs c hc
  rw [contextSentences, List.mem_map] at hs
  obtain ⟨t, ht, hst⟩ := hs
  have ht' := List.mem_of_mem_filter ht
  rw [jsSplitPunct, List.mem_map] at ht'
  obtain ⟨seg, hseg, htseg⟩ := ht'
  subst hst
  subst htseg
  have hc' : c ∈ trimChars seg := by
    simpa [jsTrim] using hc
  exact splitGo_punct_free _ false [] (by simp) seg hseg c (mem_of_mem_trimChars hc')

/-- No sentence-like unit ends with a question mark. -/
theorem contextSentences_not_endsWithQmark (content : String) :
    ∀ s ∈ contextSentences content, endsWithQmark s = false := by
  intro s hs
  rw [endsWithQmark, decide_eq_false_iff_not]
  intro hlast
  have hq : '?' ∈ s.toList := mem_of_getLast?_eq hlast
  have := contextSentences_punct_free content s hs '?' hq
  simp [isTerminalPunct] at this

/-! ### Claim theorems -/

/-- C1: the claim states that spreadsheet extraction processes every
sheet of the workbook and labels the produced units with `Sheet: <name>`
boundary markers.  The shipped `DocumentProcessor.processDocument`
serializes only `workbook.Sheets[workbook.SheetNames[0]]`: on a workbook
with sheets `Pricing` and `Security`, the extraction output holds only
the Pricing row rendered by the CSV loader, contains no `Sheet:` marker
anywhere, and the Security sheet's content is silently dropped — while
the sibling revision of the same method (src/unnamed/part_008) produces
exactly the claimed markers. -/
theorem c1_code_bug_theorem :
    extractContent filePS = .ok [⟨"Item: Widget\nPrice: 10"⟩]
    ∧ strContains ("Item: Widget\nPrice: 10") ("Sheet:") = false
    ∧ strContains ("Item: Widget\nPrice: 10") ("AES256") = false
    ∧ extractExcelAllSheets wbPS =
        [⟨"Sheet: Pricing\nItem,Price\nWidget,10\n\nSheet: Security\nControl,Status\nEncryption,AES256"⟩] :=
  ⟨rfl, rfl, rfl, rfl⟩

/-- C2: the claim states that, of the sentence-like units of a new
ContextEntry's content, the units ending in `?` are stored as question
embeddings, so that content with an interrogative sentence produces at
least one question-embedding row.  Because `content.split(/[.!?]+/)`
removes the terminal punctuation from every unit, no unit can end in
`?`: the question list is empty for every content, every unit is stored
as an answer embedding, and the concrete interrogative content of
end-to-end scenario A produces zero question rows. -/
theorem c2_code_bug_theorem :
    contextQuestionSnippets ("What is your data retention policy? We keep data for 5 years.") = []
    ∧ contextAnswerSnippets ("What is your data retention policy? We keep data for 5 years.") =
        [("What is your data retention policy"), ("We keep data for 5 years")]
    ∧ ∀ content : String,
        contextQuestionSnippets content = []
        ∧ contextAnswerSnippets content = contextSentences content := by
  refine ⟨rfl, rfl, fun content => ⟨?_, ?_⟩⟩
  · rw [contextQuestionSnippets, List.filter_eq_nil_iff]
    intro s hs
    simp [contextSentences_not_endsWithQmark content s hs]
  · rw [contextAnswerSnippets, List.filter_eq_self]
    intro s hs
    simp [contextSentences_not_endsWithQmark content s hs]

/-- C5 counterexample: the claim states that an uploaded file with
media type `image/png` transitions its document to the `error` status
with an UnsupportedFormat-class message.  The multer `fileFilter`
rejects such a file silently, so the upload creates no document row at
all: there is no document to transition. -/
theorem c5_counterexample :
    uploadAccept ("image/png") = false ∧ uploadDocuments [pngFile] = [] :=
  ⟨rfl, rfl⟩

/-- C5 (amended): for every file whose declared media type is outside
the recognized allow-list, content extraction (when invoked) fails with
an `Unsupported file type` error producing no units; the upload route
however rejects such files at intake, creating no document row, so no
chunks and no questions ever exist for them and no document reaches the
`error` status on their account. -/
theorem c5_amended_theorem :
    ∀ f : UploadFile, uploadAccept f.mimetype = false →
      extractContent f = .error (("Unsupported file type: ") ++ f.mimetype)
      ∧ uploadDocuments [f] = [] := by
  intro f h
  have hb := h
  simp only [uploadAccept, allowedTypes, List.contains_cons, List.contains_nil,
    Bool.or_eq_false_iff, beq_eq_false_iff_ne, ne_eq] at h
  obtain ⟨h1, h2, h3, h4, h5, -⟩ := h
  constructor
  · rw [extractContent, if_neg h1, if_neg (not_or.mpr ⟨h3, h2⟩), if_neg (not_or.mpr ⟨h5, h4⟩)]
  · simp [uploadDocuments, List.filter_cons, hb]

/-- C5 witness: the amended statement applied to the PNG upload. -/
theorem c5_witness :
    extractContent pngFile = .error (("Unsupported file type: ") ++ pngFile.mimetype)
    ∧ uploadDocuments [pngFile] = [] :=
  c5_amended_theorem pngFile rfl

/-- C7 counterexample: the claim states that the export emits the
header row `Question, Type, Confidence, Answer, Source Document`.  The
emitted header has no spaces after the commas: exporting a single
concrete row produces exactly the spaceless header line, which differs
from the claimed one. -/
theorem c7_counterexample :
    exportQuestionsCsv [r05] =
      some ("Question,Type,Confidence,Answer,Source Document\n\"Q3\",\"explicit\",\"50.0%\",\"A3\",\"S3\"\n")
    ∧ csvHeader ≠ ("Question, Type, Confidence, Answer, Source Document") :=
  ⟨rfl, by decide⟩

/-- C7 (amended): CSV export of questions emits the header row
`Question,Type,Confidence,Answer,Source Document` (no spaces after the
commas), renders each confidence as a percentage string with exactly
one decimal place (`0.947` → `94.7%`, `0.5` → `50.0%`), renders a
missing or `NaN` confidence as `0.0%`, and quotes every field with
embedded double quotes doubled — shown by the full export of the
three-row scenario, one row carrying an embedded quote. -/
theorem c7_amended_theorem :
    (∀ rows : List QuestionRow, rows ≠ [] →
      ∃ body, exportQuestionsCsv rows = some (csvHeader ++ ("\n") ++ body))
    ∧ exportQuestionsCsv [r947, rNaN, r05] =
        some ("Question,Type,Confidence,Answer,Source Document\n\"What is your SLA?\",\"explicit\",\"94.7%\",\"He said \"\"yes\"\" to us.\",\"Section 2\"\n\"Q2\",\"implicit\",\"0.0%\",\"A2\",\"S2\"\n\"Q3\",\"explicit\",\"50.0%\",\"A3\",\"S3\"\n") := by
  constructor
  · intro rows h
    refine ⟨String.join (rows.map (fun q => csvRow q ++ ("\n"))), ?_⟩
    rw [exportQuestionsCsv, if_neg (by simpa [List.isEmpty_iff] using h)]
  · rfl

/-- C7 witness: the amended statement applied to a one-row export. -/
theorem c7_witness :
    ∃ body, exportQuestionsCsv [r05] = some (csvHeader ++ ("\n") ++ body) :=
  c7_amended_theorem.1 [r05] (List.cons_ne_nil r05 [])

/-- C9 counterexample: the claim states that a durable `error` document
with no in-memory status reports step `error` carrying the stored error
message.  When the stored message is the empty string, the route's
`(doc.metadata)?.error || "Unknown error occurred"` treats it as falsy
and substitutes the default, so the reply does not carry the stored
message. -/
theorem c9_counterexample :
    (statusQueryResult none ("error") (some (""))).error = some ("Unknown error occurred")
    ∧ (("Unknown error occurred") : String) ≠ ("") :=
  ⟨rfl, by decide⟩

/-- C9 (amended): when no in-memory `ProcessingStatus` exists for a
document, the status query derives the reply from the durable document
status: a durable `processed` document reports step `complete`; a
durable `error` document reports step `error`, carrying the stored
error message when one is stored and non-empty, and the fallback
message `Unknown error occurred` when the stored message is missing or
empty; and every other durable status reports step `preparation`. -/
theorem c9_amended_theorem :
    ∀ (docStatus : String) (metaError : Option String),
      (docStatus = ("processed") →
        (statusQueryResult none docStatus metaError).currentStep = ("complete"))
      ∧ (docStatus = ("error") →
          (statusQueryResult none docStatus metaError).currentStep = ("error")
          ∧ (∀ m, metaError = some m → m ≠ ("") →
              (statusQueryResult none docStatus metaError).error = some m)
          ∧ ((metaError = none ∨ metaError = some ("")) →
              (statusQueryResult none docStatus metaError).error =
                some ("Unknown error occurred")))
      ∧ (docStatus ≠ ("processed") → docStatus ≠ ("error") →
          (statusQueryResult none docStatus metaError).currentStep = ("preparation")) := by
  intro docStatus metaError
  refine ⟨?_, ?_, ?_⟩
  · intro h
    subst h
    rfl
  · intro h
    subst h
    refine ⟨rfl, ?_, ?_⟩
    · intro m hm hne
      subst hm
      simp [statusQueryResult, defaultStatusFor, jsOr, hne]
    · rintro (hm | hm) <;> subst hm <;> rfl
  · intro h1 h2
    simp [statusQueryResult, defaultStatusFor, h1, h2]

/-- C9 witness: the amended mapping evaluated at concrete durable
statuses, including a non-empty and an empty stored message. -/
theorem c9_witness :
    (statusQueryResult none ("processed") none).currentStep = ("complete")
    ∧ (statusQueryResult none ("error") (some ("OpenAI API quota exceeded. Please check your usage limits."))).currentStep = ("error")
    ∧ (statusQueryResult none ("error") (some ("OpenAI API quota exceeded. Please check your usage limits."))).error =
        some ("OpenAI API quota exceeded. Please check your usage limits.")
    ∧ (statusQueryResult none ("error") (some (""))).error = some ("Unknown error occurred")
    ∧ (statusQueryResult none ("processing") none).currentStep = ("preparation") := by
  refine ⟨(c9_amended_theorem ("processed") none).1 rfl, ?_, ?_, ?_, ?_⟩
  · exact ((c9_amended_theorem ("error") (some ("OpenAI API quota exceeded. Please check your usage limits."))).2.1 rfl).1
  · exact ((c9_amended_theorem ("error") (some ("OpenAI API quota exceeded. Please check your usage limits."))).2.1 rfl).2.1 _ rfl (by decide)
  · exact ((c9_amended_theorem ("error") (some (""))).2.1 rfl).2.2 (Or.inr rfl)
  · exact (c9_amended_theorem ("processing") none).2.2 (by decide) (by decide)

/-- A successful check run determines the validator verdict. -/
theorem validCheck_some {x : Json} {b : Bool} (h : validCheck x = some b) :
    validQuestionB x = b := by
  cases x with
  | null => simp [validCheck] at h
  | bool v => exact Option.some.inj h
  | num q => exact Option.some.inj h
  | str s => exact Option.some.inj h
  | arr l => exact Option.some.inj h
  | obj f => exact Option.some.inj h

/-- When no element is `null`, the filter completes and keeps exactly
the records passing the checks, each decided independently of its
siblings. -/
theorem filterRecords_eq_filter :
    ∀ xs : List Json, Json.null ∉ xs → filterRecords xs = some (xs.filter validQuestionB) := by
  intro xs
  induction xs with
  | nil => intro _; rfl
  | cons x rest ih =>
    intro h
    have hx : x ≠ Json.null := fun e => h (e ▸ List.mem_cons_self x rest)
    have hrest : Json.null ∉ rest := fun hr => h (List.mem_cons_of_mem _ hr)
    have hv : validCheck x = some (validQuestionB x) := by
      cases x with
      | null => exact absurd rfl hx
      | bool v => rfl
      | num q => rfl
      | str s => rfl
      | arr l => rfl
      | obj f => rfl
    rw [filterRecords, hv, ih hrest]
    simp [List.filter_cons]

/-- Every record surviving a completed filter run passes the checks. -/
theorem validQuestionB_of_mem_filterRecords :
    ∀ {xs l : List Json}, filterRecords xs = some l → ∀ {j}, j ∈ l → validQuestionB j = true := by
  intro xs
  induction xs with
  | nil =>
    intro l h j hj
    rw [filterRecords] at h
    cases h
    simp at hj
  | cons x rest ih =>
    intro l h j hj
    rw [filterRecords] at h
    cases hv : validCheck x with
    | none => rw [hv] at h; cases h
    | some b =>
      simp only [hv] at h
      cases hrec : filterRecords rest with
      | none => rw [hrec] at h; cases h
      | some l' =>
        rw [hrec] at h
        rw [Option.map_some'] at h
        cases h
        by_cases hb : b = true
        · subst hb
          rw [if_pos rfl] at hj
          rcases List.mem_cons.mp hj with h1 | h2
          · subst h1
            exact validCheck_some hv
          · exact ih hrec h2
        · rw [Bool.not_eq_true] at hb
          subst hb
          rw [if_neg (by simp)] at hj
          exact ih hrec hj

/-- Every record a chunk contributes passes the checks. -/
theorem validQuestionB_of_mem_perChunk (oracle : String → OracleResult) (d : LCDoc) (j : Json)
    (h : j ∈ perChunk oracle d) : validQuestionB j = true := by
  simp only [perChunk] at h
  by_cases hc : (jsTrim d.pageContent = ("") ∨ (jsTrim d.pageContent).length < 10)
  · rw [if_pos hc] at h
    simp at h
  · rw [if_neg hc] at h
    cases ho : oracle (promptFor (jsTrim d.pageContent)) with
    | err m => rw [ho] at h; simp at h
    | ok resp =>
      rw [ho] at h
      simp only [chunkRecordsFromResponse] at h
      cases hp : Json.parse resp with
      | none => rw [hp] at h; simp at h
      | some jv =>
        rw [hp] at h
        cases jv with
        | arr xs =>
          simp only [recordsFromParsed] at h
          cases hf : filterRecords xs with
          | none => rw [hf] at h; simp at h
          | some l =>
            rw [hf] at h
            exact validQuestionB_of_mem_filterRecords hf h
        | null => simp [recordsFromParsed] at h
        | bool b => simp [recordsFromParsed] at h
        | num q => simp [recordsFromParsed] at h
        | str s => simp [recordsFromParsed] at h
        | obj f => simp [recordsFromParsed] at h

/-- The validator verdict, characterized field by field. -/
theorem validQuestionB_iff (j : Json) :
    validQuestionB j = true ↔
      ((∃ s, getField j ("text") = some (.str s) ∧ 0 < s.length)
       ∧ (getField j ("type") = some (.str ("explicit"))
          ∨ getField j ("type") = some (.str ("implicit")))
       ∧ (∃ c, getField j ("confidence") = some (.num c)
            ∧ jsLe ⟨0, 1⟩ c = true ∧ jsLe c ⟨1, 1⟩ = true)
       ∧ (∃ a, getField j ("answer") = some (.str a))
       ∧ (∃ sd, getField j ("sourceDocument") = some (.str sd))) := by
  rw [validQuestionB]
  simp only [Bool.and_eq_true]
  constructor
  · rintro ⟨⟨⟨⟨h1, h2⟩, h3⟩, h4⟩, h5⟩
    refine ⟨?_, ?_, ?_, ?_, ?_⟩
    · split at h1
      next s heq => exact ⟨s, heq, by simpa using h1⟩
      next => cases h1
    · split at h2
      next t heq =>
        rcases Bool.or_eq_true_iff.mp h2 with he | hi
        · left
          rw [heq, decide_eq_true_eq.mp he]
        · right
          rw [heq, decide_eq_true_eq.mp hi]
      next => cases h2
    · split at h3
      next c heq =>
        rw [Bool.and_eq_true] at h3
        exact ⟨c, heq, h3⟩
      next => cases h3
    · split at h4
      next a heq => exact ⟨a, heq⟩
      next => cases h4
    · split at h5
      next sd heq => exact ⟨sd, heq⟩
      next => cases h5
  · rintro ⟨⟨s, hs, hlen⟩, htype, ⟨c, hc, hc1, hc2⟩, ⟨a, ha⟩, ⟨sd, hsd⟩⟩
    rw [hs, hc, ha, hsd]
    rcases htype with ht | ht
    · rw [ht]
      simp [hlen, hc1, hc2]
    · rw [ht]
      simp [hlen, hc1, hc2]

/-- A confidence passing both validator bounds lies in `[0, 1]` as a
rational (a zero denominator makes the value `0`, still in range). -/
theorem confidence_range (c : JsNum) (h1 : jsLe ⟨0, 1⟩ c = true) (h2 : jsLe c ⟨1, 1⟩ = true) :
    (0 : ℚ) ≤ c.toRat ∧ c.toRat ≤ 1 := by
  rw [jsLe, decide_eq_true_eq] at h1 h2
  simp at h1 h2
  rcases Nat.eq_zero_or_pos c.den with hd | hd
  · rw [JsNum.toRat, hd]
    simp
  · have hd' : (0 : ℚ) < (c.den : ℚ) := by exact_mod_cast hd
    constructor
    · refine div_nonneg ?_ hd'.le
      exact_mod_cast h1
    · rw [JsNum.toRat, div_le_one hd']
      exact_mod_cast h2

/-- C3 counterexample: the claim states that a validated record's
answer and source citation are non-empty, and that a record failing a
field check is dropped individually without failing the chunk's other
records.  The validator keeps a record whose answer and sourceDocument
are empty strings, and a `null` element in the parsed array throws
inside `filter`, discarding the chunk's valid sibling record as well. -/
theorem c3_counterexample :
    filterRecords [recEmptyAnswer] = some [recEmptyAnswer]
    ∧ recordsFromParsed (.arr [recGood, .null]) = [] :=
  ⟨rfl, rfl⟩

/-- C3 (amended): every record returned by `extractQuestions` has a
non-empty text, a type that is exactly `explicit` or `implicit`, a
numeric confidence within `[0, 1]`, and answer and source-citation
fields that are strings — possibly empty, since only their type is
checked.  A parsed record failing a check is dropped individually,
leaving its siblings intact, whenever no element of the chunk's array
is `null` (a `null` element makes the whole chunk contribute zero
records). -/
theorem c3_amended_theorem :
    (∀ (oracle : String → OracleResult) (docs : List LCDoc) (j : Json),
        j ∈ extractQuestionsImpl oracle docs →
          (∃ s, getField j ("text") = some (.str s) ∧ 0 < s.length)
          ∧ (getField j ("type") = some (.str ("explicit"))
             ∨ getField j ("type") = some (.str ("implicit")))
          ∧ (∃ c, getField j ("confidence") = some (.num c)
               ∧ (0 : ℚ) ≤ c.toRat ∧ c.toRat ≤ 1)
          ∧ (∃ a, getField j ("answer") = some (.str a))
          ∧ (∃ sd, getField j ("sourceDocument") = some (.str sd)))
    ∧ (∀ xs : List Json, Json.null ∉ xs →
        filterRecords xs = some (xs.filter validQuestionB)) := by
  constructor
  · intro oracle docs j hj
    rw [extractQuestionsImpl, List.mem_flatten] at hj
    obtain ⟨l, hl, hjl⟩ := hj
    rw [List.mem_map] at hl
    obtain ⟨d, _, hld⟩ := hl
    subst hld
    have hvalid := validQuestionB_of_mem_perChunk oracle d j hjl
    obtain ⟨h1, h2, ⟨c, hc, hc1, hc2⟩, h4, h5⟩ := (validQuestionB_iff j).mp hvalid
    exact ⟨h1, h2, ⟨c, hc, confidence_range c hc1 hc2⟩, h4, h5⟩
  · exact filterRecords_eq_filter

/-- C3 witness: the amended statement applied to a concrete extraction
run and a concrete record list. -/
theorem c3_witness :
    ((∃ s, getField recGood ("text") = some (.str s) ∧ 0 < s.length)
     ∧ (getField recGood ("type") = some (.str ("explicit"))
        ∨ getField recGood ("type") = some (.str ("implicit")))
     ∧ (∃ c, getField recGood ("confidence") = some (.num c)
          ∧ (0 : ℚ) ≤ c.toRat ∧ c.toRat ≤ 1)
     ∧ (∃ a, getField recGood ("answer") = some (.str a))
     ∧ (∃ sd, getField recGood ("sourceDocument") = some (.str sd)))
    ∧ filterRecords [recEmptyAnswer] = some ([recEmptyAnswer].filter validQuestionB) := by
  constructor
  · refine c3_amended_theorem.1 oracleGood [chunkA] recGood ?_
    rw [show extractQuestionsImpl oracleGood [chunkA] = [recGood] from rfl]
    exact List.mem_singleton_self recGood
  · exact c3_amended_theorem.2 [recEmptyAnswer] (by simp [recEmptyAnswer])

/-- C4 counterexample: the claim states that when a direct parse of the
oracle output fails, the parser locates the first array-shaped substring
and retries on it.  On a response wrapping a valid array in prose, the
shipped code (a direct `JSON.parse` only) contributes zero questions,
while the claimed retry strategy recovers the embedded record. -/
theorem c4_counterexample :
    chunkRecordsFromResponse respProse = [] ∧ specParseStrategy respProse = [recSLA] :=
  ⟨rfl, rfl⟩

/-- C4 (amended): the parser attempts only a direct parse of the raw
oracle output; there is no substring-extraction retry.  When the direct
parse fails the chunk yields zero questions, and no fatal pipeline
error is propagated: with a vector store present, `extractQuestions`
returns normally with the accumulated questions of all chunks. -/
theorem c4_amended_theorem :
    (∀ resp : String, Json.parse resp = none → chunkRecordsFromResponse resp = [])
    ∧ (∀ (dp : DocumentProcessorState) (oracle : String → OracleResult) (docs : List LCDoc),
        dp.vectorStore = some () →
        dpExtractQuestions dp oracle docs = .ok (extractQuestionsImpl oracle docs)) := by
  constructor
  · intro resp h
    rw [chunkRecordsFromResponse, h]
  · intro dp oracle docs h
    simp [dpExtractQuestions, h]

/-- C4 witness: the amended statement applied to a concrete prose
response and a concrete ready processor. -/
theorem c4_witness :
    chunkRecordsFromResponse ("I could not find any questions in this text.") = []
    ∧ dpExtractQuestions ⟨some ()⟩ oracleProse [chunkA] =
        .ok (extractQuestionsImpl oracleProse [chunkA]) :=
  ⟨c4_amended_theorem.1 ("I could not find any questions in this text.") rfl,
   c4_amended_theorem.2 ⟨some ()⟩ oracleProse [chunkA] rfl⟩

/-- C6: per-chunk extraction is isolated — a chunk contributing zero
records (oracle error or malformed output) leaves the accumulated
questions of its siblings unchanged, and a pipeline run whose content
extraction succeeded still records the `processed` document update and
the final `complete` status, whatever the oracle answered. -/
theorem c6_theorem :
    ∀ (oracle : String → OracleResult) (pre post : List LCDoc) (bad : LCDoc),
      perChunk oracle bad = [] →
      extractQuestionsImpl oracle (pre ++ bad :: post) =
        extractQuestionsImpl oracle pre ++ extractQuestionsImpl oracle post
      ∧ ∀ (split : List LCDoc → List LCDoc) (file : UploadFile) (docs : List LCDoc),
          (extractContent file).map split = .ok docs →
          Effect.setDocStatus ("processed") none ∈ pipelineTrace split oracle file
          ∧ Effect.setStatus ("complete")
              [("preparation"), ("extraction"), ("questions"), ("analysis")] 100 none
              ∈ pipelineTrace split oracle file := by
  intro oracle pre post bad hbad
  constructor
  · rw [extractQuestionsImpl, extractQuestionsImpl, extractQuestionsImpl,
      List.map_append, List.map_cons, hbad, List.flatten_append, List.flatten_cons]
    simp
  · intro split file docs h
    have htr : pipelineTrace split oracle file =
        pipelineSuccessEffects (extractQuestionsImpl oracle docs) := by
      unfold pipelineTrace
      rw [h]
    rw [htr]
    constructor
    · simp [pipelineSuccessEffects]
    · simp [pipelineSuccessEffects]

/-- C6 witness: a prose-answering oracle makes every chunk contribute
zero records; the isolation equation and the completed pipeline
evaluated on concrete chunks and a concrete Word upload. -/
theorem c6_witness :
    extractQuestionsImpl oracleProse ([chunkA] ++ chunkB :: [chunkA]) =
      extractQuestionsImpl oracleProse [chunkA] ++ extractQuestionsImpl oracleProse [chunkA]
    ∧ Effect.setDocStatus ("processed") none ∈ pipelineTrace id oracleProse fileW
    ∧ Effect.setStatus ("complete")
        [("preparation"), ("extraction"), ("questions"), ("analysis")] 100 none
        ∈ pipelineTrace id oracleProse fileW := by
  have h := c6_theorem oracleProse [chunkA] [chunkA] chunkB rfl
  have h2 := h.2 id fileW [⟨"What is your retention policy? Explain the policy in detail."⟩] rfl
  exact ⟨h.1, h2.1, h2.2⟩

/-- In a successful run's effects, the durable `processed` update sits
at the unique position after the five status milestones and all the
question inserts. -/
theorem successEffects_processed_index (qs : List Json) (j : ℕ)
    (hj : (pipelineSuccessEffects qs)[j]? = some (.setDocStatus ("processed") none)) :
    j = 5 + qs.length := by
  rcases j with _ | _ | _ | _ | _ | j
  · simp [pipelineSuccessEffects] at hj
  · simp [pipelineSuccessEffects] at hj
  · simp [pipelineSuccessEffects] at hj
  · simp [pipelineSuccessEffects] at hj
  · simp [pipelineSuccessEffects] at hj
  · have hj' : (qs.map Effect.insertQuestion ++
        [Effect.setDocStatus ("processed") none,
         Effect.setStatus ("complete")
           [("preparation"), ("extraction"), ("questions"), ("analysis")] 100 none])[j]? =
        some (Effect.setDocStatus ("processed") none) := by
      simpa [pipelineSuccessEffects] using hj
    rcases Nat.lt_or_ge j qs.length with hlt | hge
    · rw [List.getElem?_append_left (by simpa using hlt), List.getElem?_map] at hj'
      cases hq : qs[j]? with
      | none => rw [hq] at hj'; simp at hj'
      | some q => rw [hq] at hj'; simp at hj'
    · rw [List.getElem?_append_right (by simpa using hge), List.length_map] at hj'
      cases h2 : j - qs.length with
      | zero => omega
      | succ k2 =>
        rw [h2] at hj'
        cases k2 with
        | zero => simp at hj'
        | succ k3 => simp at hj'

/-- In a successful run's effects, every question insert sits before
position `5 + qs.length`. -/
theorem successEffects_insert_lt (qs : List Json) (i : ℕ) (q : Json)
    (hi : (pipelineSuccessEffects qs)[i]? = some (.insertQuestion q)) :
    i < 5 + qs.length := by
  rcases i with _ | _ | _ | _ | _ | i
  · omega
  · omega
  · omega
  · omega
  · omega
  · have hi' : (qs.map Effect.insertQuestion ++
        [Effect.setDocStatus ("processed") none,
         Effect.setStatus ("complete")
           [("preparation"), ("extraction"), ("questions"), ("analysis")] 100 none])[i]? =
        some (Effect.insertQuestion q) := by
      simpa [pipelineSuccessEffects] using hi
    by_contra hcon
    have hge : qs.length ≤ i := by omega
    rw [List.getElem?_append_right (by simpa using hge), List.length_map] at hi'
    cases h2 : i - qs.length with
    | zero => rw [h2] at hi'; simp at hi'
    | succ k2 =>
      rw [h2] at hi'
      cases k2 with
      | zero => simp at hi'
      | succ k3 => simp at hi'

/-- C8: within every pipeline run, every question-insert effect
precedes the durable `processed` status update, and when extraction
succeeded every extracted question is indeed inserted in the trace —
so a reader never observes a `processed` document whose extracted
questions were not yet written. -/
theorem c8_theorem :
    ∀ (split : List LCDoc → List LCDoc) (oracle : String → OracleResult)
      (file : UploadFile) (j : ℕ),
      (pipelineTrace split oracle file)[j]? = some (.setDocStatus ("processed") none) →
      (∀ (i : ℕ) (q : Json),
          (pipelineTrace split oracle file)[i]? = some (.insertQuestion q) → i < j)
      ∧ ∀ docs, (extractContent file).map split = .ok docs →
          ∀ q ∈ extractQuestionsImpl oracle docs,
            Effect.insertQuestion q ∈ pipelineTrace split oracle file := by
  intro split oracle file j hj
  cases hex : (extractContent file).map split with
  | error e =>
    exfalso
    have htr : pipelineTrace split oracle file = pipelineErrorEffects (mapErrorMessage e) := by
      unfold pipelineTrace
      rw [hex]
    rw [htr] at hj
    rcases j with _ | _ | _ | _ | _ | j
    · simp [pipelineErrorEffects] at hj
    · simp [pipelineErrorEffects] at hj
    · simp [pipelineErrorEffects] at hj
    · simp [pipelineErrorEffects] at hj
    · simp [pipelineErrorEffects] at hj
    · simp [pipelineErrorEffects] at hj
  | ok docs =>
    have htr : pipelineTrace split oracle file =
        pipelineSuccessEffects (extractQuestionsImpl oracle docs) := by
      unfold pipelineTrace
      rw [hex]
    rw [htr] at hj
    have hjval := successEffects_processed_index _ j hj
    constructor
    · intro i q hi
      rw [htr] at hi
      have := successEffects_insert_lt _ i q hi
      omega
    · intro docs' hdocs' q hq
      rw [htr]
      have hdd : docs' = docs := (Except.ok.inj hdocs').symm
      subst hdd
      refine List.mem_cons_of_mem _ (List.mem_cons_of_mem _ (List.mem_cons_of_mem _
        (List.mem_cons_of_mem _ (List.mem_cons_of_mem _ ?_))))
      exact List.mem_append_left _ (List.mem_map_of_mem Effect.insertQuestion hq)

/-- C8 witness: in a concrete successful run the `processed` update
sits at index 6 and the single question insert at index 5, so the
theorem yields `5 < 6`. -/
theorem c8_witness :
    (pipelineTrace id oracleGood fileW)[6]? = some (.setDocStatus ("processed") none)
    ∧ 5 < 6 := by
  have h6 : (pipelineTrace id oracleGood fileW)[6]? =
      some (.setDocStatus ("processed") none) := rfl
  exact ⟨h6, (c8_theorem id oracleGood fileW 6 h6).1 5 recGood rfl⟩

/-- C10: on a freshly constructed `DocumentProcessor`, whose vector
store is still `null` because no `processDocument` call has succeeded,
`extractQuestions` throws `Documents must be processed before extracting
questions` instead of returning a question list, for every oracle and
every chunk list. -/
theorem c10_theorem :
    ∀ (oracle : String → OracleResult) (docs : List LCDoc),
      dpExtractQuestions DocumentProcessorState.init oracle docs =
        .error ("Documents must be processed before extracting questions") :=
  fun _ _ => rfl

end AnswerPath
